import Mathlib

/-!
Verification model of the Vegas dual-tunnel trading strategy
(`internal/strategy/vegas_tunnel.go`).

Numeric model:

* `decimal.Decimal` (shopspring/decimal) is an arbitrary-precision decimal.
  Its values are modelled as `ℚ`.  `Add`, `Sub`, `Mul`, `NewFromInt` and the
  comparisons are exact, so they map to the rational operations.  `Div` is
  `DivRound` at `DivisionPrecision = 16`: the quotient is rounded half away
  from zero to an integer multiple of `10^(-16)`; it is modelled by `divD`.
* Go `float64` values are modelled as the rationals exactly representable in
  binary64.  `toF64` rounds a rational to the nearest binary64 value
  (round half to even).  The model covers the exponent range `2^(-127)` to
  `2^127`, which amply contains every float appearing in this strategy
  (prices, EMA weights, tolerances, ratios); overflow and subnormals are out
  of scope.  Float addition is `f64add` (add, then round once).
* `decimal.NewFromFloat` converts a float64 to the decimal produced by Go's
  shortest round-trip formatting (`strconv` shortest mode): the decimal with
  the fewest significant digits that parses (rounds) back to the same
  float64 value, the closer one when two candidates qualify, even last digit
  on an exact tie.  It is modelled by `NewFromFloat`.

The numeric kernels are written over `ℤ`/`ℕ` numerator–denominator pairs so
that concrete instances evaluate by kernel reduction.
-/

set_option maxRecDepth 4000
set_option maxHeartbeats 1000000

namespace VegasBot

/-- Largest `e` with `2^e ≤ n` (for `n ≥ 1`), by binary search over the
exponent's bits; covers `e < 128`, ample for the values in this strategy. -/
def floorLog2 (n : ℕ) : ℕ :=
  [64, 32, 16, 8, 4, 2, 1].foldl (fun e k => if 2 ^ (e + k) ≤ n then e + k else e) 0

/-- Is `n/d < 2^e`? -/
def fracLtPow2 (n d : ℕ) (e : ℤ) : Bool :=
  if 0 ≤ e then n < d * 2 ^ e.toNat else n * 2 ^ (-e).toNat < d

/-- Is `n/d < 10^e`? -/
def fracLtPow10 (n d : ℕ) (e : ℤ) : Bool :=
  if 0 ≤ e then n < d * 10 ^ e.toNat else n * 10 ^ (-e).toNat < d

/-- For a positive fraction `n/d`, the binade exponent `e` with
`2^e ≤ n/d < 2^(e+1)`. -/
def fracExp2 (n d : ℕ) : ℤ :=
  let e0 : ℤ := (floorLog2 n : ℤ) - (floorLog2 d : ℤ)
  if fracLtPow2 n d e0 then e0 - 1 else e0

/-- For a positive fraction `n/d`, the decimal exponent `e` with
`10^e ≤ n/d < 10^(e+1)`: a first guess from the binade exponent
(`log10 2 ≈ 0.30103`), then corrected by direct comparison. -/
def fracExp10 (n d : ℕ) : ℤ :=
  let g := Int.ediv (fracExp2 n d * 30103) 100000
  if fracLtPow10 n d (g - 1) then g - 2
  else if fracLtPow10 n d g then g - 1
  else if !fracLtPow10 n d (g + 2) then g + 2
  else if !fracLtPow10 n d (g + 1) then g + 1
  else g

/-- Round the positive fraction `n/d` to the nearest natural number, ties to
even (IEEE 754 default rounding). -/
def rheFrac (n d : ℕ) : ℕ :=
  let q := n / d
  let r := n % d
  if 2 * r < d then q
  else if d < 2 * r then q + 1
  else if q % 2 = 0 then q else q + 1

/-- Numerator/denominator of the binary64 value nearest to `n/d`
(round half to even). -/
def toF64core (n : ℤ) (d : ℕ) : ℤ × ℕ :=
  if n = 0 then (0, 1)
  else
    let na := n.natAbs
    let e := fracExp2 na d
    let m : ℕ :=
      if 0 ≤ 52 - e then rheFrac (na * 2 ^ (52 - e).toNat) d
      else rheFrac na (d * 2 ^ (e - 52).toNat)
    let v : ℕ × ℕ := if 52 ≤ e then (m * 2 ^ (e - 52).toNat, 1) else (m, 2 ^ (52 - e).toNat)
    (if n < 0 then -(v.1 : ℤ) else (v.1 : ℤ), v.2)

/-- The binary64 value nearest to `q` (round half to even): the value of the
Go expression that produced `q` exactly, rounded once. -/
def toF64 (q : ℚ) : ℚ := mkRat (toF64core q.num q.den).1 (toF64core q.num q.den).2

/-- Go float64 addition: exact sum, rounded once to binary64. -/
def f64add (a b : ℚ) : ℚ := toF64 (a + b)

/-- One candidate step of Go's shortest-decimal search for the positive
binary64 value `na/d`, at scale `10^s` (a candidate with the current number
of significant digits): the two adjacent decimals at that scale, kept only if
they round back to `na/d`; the closer one wins, even last digit on a tie.
The candidate is returned as a `(numerator, power-of-ten denominator)` pair. -/
def shortCandAtF (na d : ℕ) (s : ℤ) : Option (ℕ × ℕ) :=
  let xn := if 0 ≤ s then na * 10 ^ s.toNat else na
  let xd := if 0 ≤ s then d else d * 10 ^ (-s).toNat
  let nlo := xn / xd
  let nhi := if xn % xd = 0 then nlo else nlo + 1
  let mkc := fun (c : ℕ) =>
    if 0 ≤ s then (c, 10 ^ s.toNat) else (c * 10 ^ (-s).toNat, 1)
  let rt := fun (c : ℕ) =>
    let p := mkc c
    let f := toF64core (p.1 : ℤ) p.2
    f.1 * (d : ℤ) == (na : ℤ) * (f.2 : ℤ)
  if rt nlo then
    if rt nhi then
      if nlo == nhi then some (mkc nlo)
      else if 2 * xn < (nlo + nhi) * xd then some (mkc nlo)
      else if (nlo + nhi) * xd < 2 * xn then some (mkc nhi)
      else if nlo % 2 = 0 then some (mkc nlo) else some (mkc nhi)
    else some (mkc nlo)
  else if rt nhi then some (mkc nhi)
  else none

/-- Try digit counts `1, …, k` in increasing order. -/
def shortestDecAuxF (na d : ℕ) (e10 : ℤ) : ℕ → Option (ℕ × ℕ)
  | 0 => none
  | k + 1 =>
    match shortestDecAuxF na d e10 k with
    | some r => some r
    | none => shortCandAtF na d ((k : ℤ) - e10)

/-- Numerator/denominator of Go's shortest round-trip decimal rendering of
the binary64 value `n/d` (17 significant digits always suffice). -/
def nffCore (n : ℤ) (d : ℕ) : ℤ × ℕ :=
  if n = 0 then (0, 1)
  else
    let na := n.natAbs
    let r := (shortestDecAuxF na d (fracExp10 na d) 17).getD (na, d)
    (if n < 0 then -(r.1 : ℤ) else (r.1 : ℤ), r.2)

/-- Model of `decimal.NewFromFloat`: the decimal carrying the shortest
round-trip decimal rendering of the given float64 value. -/
def NewFromFloat (f : ℚ) : ℚ := mkRat (nffCore f.num f.den).1 (nffCore f.num f.den).2

/-- Model of shopspring `Decimal.Div` (`DivRound` at `DivisionPrecision = 16`):
quotient rounded half away from zero to a multiple of `10^(-16)`. -/
def divD (a b : ℚ) : ℚ :=
  let N : ℤ := a.num * (b.den : ℤ) * 10 ^ 16 * (if b.num < 0 then -1 else 1)
  let D : ℕ := a.den * b.num.natAbs
  let r : ℤ :=
    if 0 ≤ N then Int.ediv (2 * N + (D : ℤ)) (2 * D)
    else -(Int.ediv (2 * (-N) + (D : ℤ)) (2 * D))
  mkRat r (10 ^ 16)

/-- Decidable-by-kernel equality test on `ℚ` via the normalized
numerator/denominator fields. -/
def qeqb (a b : ℚ) : Bool := (a.num == b.num) && (a.den == b.den)

/-! ## Data model (`vegas_tunnel.go`) -/

/-- `TrendDirection` (Go `iota` constants; the zero value is `TrendNone`). -/
inductive TrendDirection where
  | TrendNone
  | TrendBullish
  | TrendBearish
  | TrendSideways
  deriving DecidableEq, Repr

/-- `SignalType` (Go `iota` constants; the zero value is `SignalNone`). -/
inductive SignalType where
  | SignalNone
  | SignalBuy
  | SignalSell
  | SignalStopLoss
  | SignalTakeProfit
  deriving DecidableEq, Repr

/-- `KlineData`.  Prices and volume are decimals (`ℚ`); `Timestamp` is the
bar's open time as an integer instant (`time.Time` ordering only). -/
structure KlineData where
  Symbol : String
  Open : ℚ
  High : ℚ
  Low : ℚ
  Close : ℚ
  Volume : ℚ
  Timestamp : ℤ
  deriving DecidableEq, Repr

/-- `TunnelData`.  `TrendDir` is the Go field `TrendDirection` (renamed:
in Lean a field may not share the name of its type). -/
structure TunnelData where
  EMA12 : ℚ
  EMA144 : ℚ
  EMA169 : ℚ
  EMA288 : ℚ
  EMA338 : ℚ
  MidTunnelUpper : ℚ
  MidTunnelLower : ℚ
  LongTunnelUpper : ℚ
  LongTunnelLower : ℚ
  TrendDir : TrendDirection
  deriving DecidableEq, Repr

/-- The zero value of `TunnelData` (Go `make([]TunnelData, n)` fills with
zero decimals and `TrendNone`). -/
def zeroTunnelData : TunnelData :=
  ⟨0, 0, 0, 0, 0, 0, 0, 0, 0, TrendDirection.TrendNone⟩

/-- The zero value of `KlineData`. -/
def zeroKlineData : KlineData := ⟨"", 0, 0, 0, 0, 0, 0⟩

/-- `TradingSignal`.  `SigType` is the Go field `Type` (a Lean keyword);
`Confidence` is a float64 value (`ℚ` in the model). -/
structure TradingSignal where
  Symbol : String
  SigType : SignalType
  Price : ℚ
  StopLoss : ℚ
  TakeProfit : ℚ
  Confidence : ℚ
  Reason : String
  Timestamp : ℤ
  Timeframe : String
  deriving DecidableEq, Repr

/-- `VegasTunnelStrategy` (the `logger` field, used only for side-effect
logging, is omitted).  Period fields are `ℕ`; the float64 parameter fields
are `ℚ` values. -/
structure VegasTunnelStrategy where
  shortEMAPeriod : ℕ
  midTunnel1Period : ℕ
  midTunnel2Period : ℕ
  longTunnel1Period : ℕ
  longTunnel2Period : ℕ
  minTunnelPeriod : ℕ
  volumeFactor : ℚ
  riskRewardRatio : ℚ
  stopLossPercent : ℚ
  takeProfitPercent : ℚ
  kline15MData : List KlineData
  kline4HData : List KlineData
  deriving DecidableEq, Repr

/-- `NewVegasTunnelStrategy`: the default strategy instance. -/
def NewVegasTunnelStrategy : VegasTunnelStrategy :=
  { shortEMAPeriod := 12
    midTunnel1Period := 144
    midTunnel2Period := 169
    longTunnel1Period := 288
    longTunnel2Period := 338
    minTunnelPeriod := 3
    volumeFactor := toF64 (15 / 10)
    riskRewardRatio := 2
    stopLossPercent := toF64 (2 / 100)
    takeProfitPercent := toF64 (4 / 100)
    kline15MData := []
    kline4HData := [] }

/-- The default strategy carrying the given bar histories. -/
def strategyWithData (d15 d4 : List KlineData) : VegasTunnelStrategy :=
  { NewVegasTunnelStrategy with kline15MData := d15, kline4HData := d4 }

/-! ## Strategy operations -/

/-- `UpdateKlineData`: appends the bar to the matching series (`"15m"` keeps
the last 1000 bars, `"4h"` the last 500); any other timeframe string matches
no `switch` case and the strategy is unchanged.  There is no check on the
bar's open time. -/
def UpdateKlineData (v : VegasTunnelStrategy) (kline : KlineData) (timeframe : String) :
    VegasTunnelStrategy :=
  if timeframe = "15m" then
    let l := v.kline15MData ++ [kline]
    { v with kline15MData := if l.length > 1000 then l.tail else l }
  else if timeframe = "4h" then
    let l := v.kline4HData ++ [kline]
    { v with kline4HData := if l.length > 500 then l.tail else l }
  else v

/-- The EMA weight of `CalculateEMA`:
`decimal.NewFromFloat(2.0 / float64(period+1))` — the float64 quotient,
rendered as its shortest round-trip decimal. -/
def emaAlpha (period : ℕ) : ℚ := NewFromFloat (toF64 (2 / toF64 (period + 1)))

/-- The recursive tail of the EMA series: each entry is
`price * α + previous * (1 - α)` (exact decimal arithmetic). -/
def emaFrom (alpha prev : ℚ) : List ℚ → List ℚ
  | [] => []
  | p :: ps => (p * alpha + prev * (1 - alpha)) :: emaFrom alpha (p * alpha + prev * (1 - alpha)) ps

/-- `CalculateEMA`: `nil` when the series is shorter than the period;
otherwise a same-length slice whose first `period-1` slots keep the zero
decimal from `make`, the slot at `period-1` holds the SMA of the first
`period` prices (shopspring `Div`, 16-place rounding), and later slots
follow the EMA recursion.  (Go panics for `period ≤ 0`; the model is used
with `period ≥ 1`.) -/
def CalculateEMA (prices : List ℚ) (period : ℕ) : Option (List ℚ) :=
  if prices.length < period then none
  else
    let alpha := emaAlpha period
    let sma := divD ((prices.take period).sum) (period : ℚ)
    some (List.replicate (period - 1) 0 ++ sma :: emaFrom alpha sma (prices.drop period))

/-- Total accessor for an entry of `CalculateEMA`'s result. -/
def emaAt (prices : List ℚ) (period : ℕ) (i : ℕ) : ℚ :=
  ((CalculateEMA prices period).getD []).getD i 0

/-- `determineTrendDirection`: strict tunnel separation. -/
def determineTrendDirection (tunnel : TunnelData) : TrendDirection :=
  if tunnel.LongTunnelUpper < tunnel.MidTunnelLower then TrendDirection.TrendBullish
  else if tunnel.MidTunnelUpper < tunnel.LongTunnelLower then TrendDirection.TrendBearish
  else TrendDirection.TrendSideways

/-- One filled entry of `CalculateTunnelData`: bounds from the EMA pairs
(strict `GreaterThan` comparison, as in the source), then the direction. -/
def mkTunnelEntry (e12 e144 e169 e288 e338 : ℚ) : TunnelData :=
  let mu := if e169 < e144 then e144 else e169
  let ml := if e169 < e144 then e169 else e144
  let lu := if e338 < e288 then e288 else e338
  let ll := if e338 < e288 then e338 else e288
  { EMA12 := e12, EMA144 := e144, EMA169 := e169, EMA288 := e288, EMA338 := e338,
    MidTunnelUpper := mu, MidTunnelLower := ml,
    LongTunnelUpper := lu, LongTunnelLower := ll,
    TrendDir := determineTrendDirection
      { EMA12 := e12, EMA144 := e144, EMA169 := e169, EMA288 := e288, EMA338 := e338,
        MidTunnelUpper := mu, MidTunnelLower := ml,
        LongTunnelUpper := lu, LongTunnelLower := ll,
        TrendDir := TrendDirection.TrendNone } }

/-- `CalculateTunnelData`: `nil` without `longTunnel2Period` bars (or when
any EMA fails); otherwise a same-length slice, zero-valued before index
`longTunnel2Period - 1` and filled from the five EMA series afterwards. -/
def CalculateTunnelData (v : VegasTunnelStrategy) (klines : List KlineData) :
    Option (List TunnelData) :=
  if klines.length < v.longTunnel2Period then none
  else
    let prices := klines.map KlineData.Close
    match CalculateEMA prices v.shortEMAPeriod, CalculateEMA prices v.midTunnel1Period,
        CalculateEMA prices v.midTunnel2Period, CalculateEMA prices v.longTunnel1Period,
        CalculateEMA prices v.longTunnel2Period with
    | some e12, some e144, some e169, some e288, some e338 =>
      some ((List.range klines.length).map fun i =>
        if v.longTunnel2Period - 1 ≤ i then
          mkTunnelEntry (e12.getD i 0) (e144.getD i 0) (e169.getD i 0)
            (e288.getD i 0) (e338.getD i 0)
        else zeroTunnelData)
    | _, _, _, _, _ => none

/-- `isPriceNearTunnel`: the 0.2 % tolerance band around the mid or long
tunnel.  The source's long and short branches consist of the same two
interval checks. -/
def isPriceNearTunnel (_v : VegasTunnelStrategy) (price : ℚ) (tunnel : TunnelData)
    (isLong : Bool) : Bool :=
  let tolerance := NewFromFloat (toF64 (2 / 1000))
  if isLong then
    if tunnel.MidTunnelLower * (1 - tolerance) ≤ price ∧
        price ≤ tunnel.MidTunnelUpper * (1 + tolerance) then true
    else if tunnel.LongTunnelLower * (1 - tolerance) ≤ price ∧
        price ≤ tunnel.LongTunnelUpper * (1 + tolerance) then true
    else false
  else
    if tunnel.MidTunnelLower * (1 - tolerance) ≤ price ∧
        price ≤ tunnel.MidTunnelUpper * (1 + tolerance) then true
    else if tunnel.LongTunnelLower * (1 - tolerance) ≤ price ∧
        price ≤ tunnel.LongTunnelUpper * (1 + tolerance) then true
    else false

/-- `calculateSignalConfidence`: float64 arithmetic — base 0.6, +0.2 on the
4H separation inequality, +0.1 on the EMA12 position, `math.Min` cap at 1. -/
def calculateSignalConfidence (_v : VegasTunnelStrategy) (tunnel4H tunnel15M : TunnelData)
    (isLong : Bool) : ℚ :=
  let c0 := toF64 (6 / 10)
  let c1 :=
    if isLong then
      if tunnel4H.LongTunnelUpper < tunnel4H.MidTunnelLower then f64add c0 (toF64 (2 / 10)) else c0
    else
      if tunnel4H.MidTunnelUpper < tunnel4H.LongTunnelLower then f64add c0 (toF64 (2 / 10)) else c0
  let c2 :=
    if isLong then
      if tunnel15M.MidTunnelLower < tunnel15M.EMA12 then f64add c1 (toF64 (1 / 10)) else c1
    else
      if tunnel15M.EMA12 < tunnel15M.MidTunnelUpper then f64add c1 (toF64 (1 / 10)) else c1
  min c2 1

/-- `calculateStopLossAndTakeProfit`: stop at the lower (long) / higher
(short) of the two candidate bounds with a 0.2 % buffer, then the
`riskRewardRatio`-scaled target. -/
def calculateStopLossAndTakeProfit (v : VegasTunnelStrategy) (signal : TradingSignal)
    (tunnel : TunnelData) (isLong : Bool) : TradingSignal :=
  if isLong then
    let stopLossLevel :=
      if tunnel.LongTunnelUpper < tunnel.MidTunnelLower then tunnel.LongTunnelUpper
      else tunnel.MidTunnelLower
    let stopLoss := stopLossLevel * NewFromFloat (toF64 (998 / 1000))
    let riskAmount := signal.Price - stopLoss
    { signal with
        StopLoss := stopLoss
        TakeProfit := signal.Price + riskAmount * NewFromFloat v.riskRewardRatio }
  else
    let stopLossLevel :=
      if tunnel.MidTunnelUpper < tunnel.LongTunnelLower then tunnel.LongTunnelLower
      else tunnel.MidTunnelUpper
    let stopLoss := stopLossLevel * NewFromFloat (toF64 (1002 / 1000))
    let riskAmount := stopLoss - signal.Price
    { signal with
        StopLoss := stopLoss
        TakeProfit := signal.Price - riskAmount * NewFromFloat v.riskRewardRatio }

/-- `checkLongSignal`: the source's four early-return guards, inverted into
nested positive conditions; on success the Buy signal with confidence and
stop/target. -/
def checkLongSignal (v : VegasTunnelStrategy) (tunnel4H tunnel15M : TunnelData)
    (kline : KlineData) (symbol : String) : Option TradingSignal :=
  if tunnel4H.TrendDir = TrendDirection.TrendBullish then
    if tunnel4H.MidTunnelLower < kline.Close then
      if isPriceNearTunnel v kline.Close tunnel15M true then
        if tunnel15M.EMA12 < kline.Close then
          some (calculateStopLossAndTakeProfit v
            { Symbol := symbol
              SigType := SignalType.SignalBuy
              Price := kline.Close
              StopLoss := 0
              TakeProfit := 0
              Confidence := calculateSignalConfidence v tunnel4H tunnel15M true
              Reason := "4H多头排列，15M回调至隧道获支撑后站上EMA12"
              Timestamp := kline.Timestamp
              Timeframe := "15M" }
            tunnel15M true)
        else none
      else none
    else none
  else none

/-- `checkShortSignal`: mirror of `checkLongSignal`. -/
def checkShortSignal (v : VegasTunnelStrategy) (tunnel4H tunnel15M : TunnelData)
    (kline : KlineData) (symbol : String) : Option TradingSignal :=
  if tunnel4H.TrendDir = TrendDirection.TrendBearish then
    if kline.Close < tunnel4H.MidTunnelUpper then
      if isPriceNearTunnel v kline.Close tunnel15M false then
        if kline.Close < tunnel15M.EMA12 then
          some (calculateStopLossAndTakeProfit v
            { Symbol := symbol
              SigType := SignalType.SignalSell
              Price := kline.Close
              StopLoss := 0
              TakeProfit := 0
              Confidence := calculateSignalConfidence v tunnel4H tunnel15M false
              Reason := "4H空头排列，15M反弹至隧道受压制后跌破EMA12"
              Timestamp := kline.Timestamp
              Timeframe := "15M" }
            tunnel15M false)
        else none
      else none
    else none
  else none

/-- `GenerateSignal`: updates the 15M cache via `UpdateKlineData(…, "15M")`
for every input bar (a no-op: the switch matches only `"15m"`/`"4h"`),
then requires enough data on both series, computes both tunnel slices and
checks long then short entry.  Returns the (possibly updated) strategy state
and the optional signal. -/
def GenerateSignal (v : VegasTunnelStrategy) (klines : List KlineData) :
    VegasTunnelStrategy × Option TradingSignal :=
  match klines with
  | [] => (v, none)
  | k0 :: _ =>
    let symbol := k0.Symbol
    let v1 := klines.foldl (fun st k => UpdateKlineData st k "15M") v
    if v1.kline15MData.length < v1.longTunnel2Period then (v1, none)
    else if v1.kline4HData.length < v1.longTunnel2Period then (v1, none)
    else
      match CalculateTunnelData v1 v1.kline4HData with
      | none => (v1, none)
      | some tunnel4H =>
        match CalculateTunnelData v1 v1.kline15MData with
        | none => (v1, none)
        | some tunnel15M =>
          let current4H := tunnel4H.getD (tunnel4H.length - 1) zeroTunnelData
          let current15M := tunnel15M.getD (tunnel15M.length - 1) zeroTunnelData
          let currentKline := v1.kline15MData.getD (v1.kline15MData.length - 1) zeroKlineData
          match checkLongSignal v1 current4H current15M currentKline symbol with
          | some signal => (v1, some signal)
          | none => (v1, checkShortSignal v1 current4H current15M currentKline symbol)

/-- `CheckEMA12Exit`: trailing exit on the momentum EMA of the 15M series.
A fixed-confidence (`0.9`) `SignalTakeProfit` when the latest close crosses
the latest EMA12 against the position; otherwise no signal. -/
def CheckEMA12Exit (v : VegasTunnelStrategy) (symbol : String) (isLong : Bool) :
    Option TradingSignal :=
  if v.kline15MData.length < 2 then none
  else
    match CalculateTunnelData v v.kline15MData with
    | none => none
    | some tunnel15M =>
      let currentKline := v.kline15MData.getD (v.kline15MData.length - 1) zeroKlineData
      let currentTunnel := tunnel15M.getD (tunnel15M.length - 1) zeroTunnelData
      let shouldExit :=
        if isLong then currentKline.Close < currentTunnel.EMA12
        else currentTunnel.EMA12 < currentKline.Close
      if shouldExit then
        some { Symbol := symbol
               SigType := SignalType.SignalTakeProfit
               Price := currentKline.Close
               StopLoss := 0
               TakeProfit := 0
               Confidence := toF64 (9 / 10)
               Reason := if isLong then "15M收盘价跌破EMA12移动止盈线" else "15M收盘价突破EMA12移动止盈线"
               Timestamp := currentKline.Timestamp
               Timeframe := "15M" }
      else none

/-- Second definition for the refinement comparison of C7 only, following the
spec's words (§4.2): a same-length sequence whose first `p-1` entries are
*marked undefined* (`none` — no numeric value), the entry at `p-1` the simple
mean, and later entries the EMA recursion with `α = 2/(p+1)` in exact
decimal arithmetic. -/
def emaSpecMarked (closes : List ℚ) (p : ℕ) : Option (List (Option ℚ)) :=
  if closes.length < p then none
  else
    some (List.replicate (p - 1) none ++
      some ((closes.take p).sum / p) ::
        (emaFrom (2 / (p + 1)) ((closes.take p).sum / p) (closes.drop p)).map some)

/-- The zero value of `TradingSignal`. -/
def zeroTradingSignal : TradingSignal := ⟨"", SignalType.SignalNone, 0, 0, 0, 0, "", 0, ""⟩

/-- A bullish 4H tunnel for the C3 counterexample. -/
def c3T4 : TunnelData := mkTunnelEntry 1 80 79 50 49

/-- A 15M tunnel whose long tunnel sits far below the mid tunnel. -/
def c3T15 : TunnelData := mkTunnelEntry 99 120 121 110 100

/-- A bar closing inside the 15M long-tunnel band, below the stop level. -/
def c3K : KlineData := ⟨"BTCUSDT", 100, 100, 100, 100, 1, 0⟩

/-- The Buy signal the engine emits on the C3 counterexample data. -/
def c3sig : TradingSignal :=
  (checkLongSignal NewVegasTunnelStrategy c3T4 c3T15 c3K "BTCUSDT").getD zeroTradingSignal

/-- Bullish 4H tunnel for the C3 witness. -/
def c3wT4 : TunnelData := mkTunnelEntry 1 80 79 50 49

/-- 15M tunnel for the C3 witness: price pulls back to the mid tunnel. -/
def c3wT15 : TunnelData := mkTunnelEntry 20 1000 1005 500 495

/-- Bar for the C3 witness, closing at 1003 inside the mid-tunnel band. -/
def c3wK : KlineData := ⟨"BTCUSDT", 1003, 1003, 1003, 1003, 1, 0⟩

/-- The Buy signal emitted on the C3 witness data (`stop = 499 < 1003`). -/
def c3wsig : TradingSignal :=
  (checkLongSignal NewVegasTunnelStrategy c3wT4 c3wT15 c3wK "BTCUSDT").getD zeroTradingSignal

/-- Second definition for C5 only, following the spec's words: for a long,
the stop level is the *nearer to the trigger price* of the fast mid-tunnel
lower bound and fast long-tunnel upper bound (the adverse-side bounds), with
the 0.2 % buffer applied. -/
def nearerAdverseStopLong (t : TunnelData) (price : ℚ) : ℚ :=
  (if |price - t.MidTunnelLower| ≤ |price - t.LongTunnelUpper| then t.MidTunnelLower
   else t.LongTunnelUpper) * (998 / 1000)

/-- Bullish 4H tunnel for the C5 counterexample. -/
def c5T4 : TunnelData := mkTunnelEntry 1 80 79 50 49

/-- 15M tunnel for C5: mid tunnel at 1000–1005, long tunnel at 495–500. -/
def c5T15 : TunnelData := mkTunnelEntry 20 1000 1005 500 495

/-- Bar for C5, closing at 1003 next to the mid tunnel. -/
def c5K : KlineData := ⟨"BTCUSDT", 1003, 1003, 1003, 1003, 1, 0⟩

/-- The Buy signal emitted on the C5 data. -/
def c5sig : TradingSignal :=
  (checkLongSignal NewVegasTunnelStrategy c5T4 c5T15 c5K "BTCUSDT").getD zeroTradingSignal

/-- An existing bar with open time 100. -/
def c8A : KlineData := ⟨"BTCUSDT", 1, 1, 1, 1, 1, 100⟩

/-- An out-of-order bar with open time 50 (≤ the last appended bar). -/
def c8B : KlineData := ⟨"BTCUSDT", 2, 2, 2, 2, 1, 50⟩

/-- A strategy whose 15M series already holds the bar at open time 100. -/
def c8S : VegasTunnelStrategy := { NewVegasTunnelStrategy with kline15MData := [c8A] }

/-- A bar used by the C10 witness. -/
def c10B : KlineData := ⟨"BTCUSDT", 1, 1, 1, 1, 1, 0⟩

theorem qeqb_iff (a b : ℚ) : qeqb a b = true ↔ a = b := by
  constructor
  · intro h
    rcases Bool.and_eq_true .. |>.mp h with ⟨h1, h2⟩
    exact Rat.ext (by exact_mod_cast beq_iff_eq.mp h1) (by exact_mod_cast beq_iff_eq.mp h2)
  · rintro rfl
    simp [qeqb]

theorem eq_of_qeqb (a b : ℚ) (h : qeqb a b = true) : a = b := (qeqb_iff a b).mp h

theorem ne_of_qeqb (a b : ℚ) (h : qeqb a b = false) : a ≠ b := by
  intro he
  rw [(qeqb_iff a b).mpr he] at h
  cases h

/-! ## List access lemmas -/

theorem getD_append_lt {α : Type} (l₁ l₂ : List α) (d : α) (i : ℕ) (h : i < l₁.length) :
    (l₁ ++ l₂).getD i d = l₁.getD i d := by
  induction l₁ generalizing i with
  | nil => simp at h
  | cons x xs ih =>
    cases i with
    | zero => rfl
    | succ j => simpa using ih j (by simpa using h)

theorem getD_append_right_add {α : Type} (l₁ l₂ : List α) (d : α) (k : ℕ) :
    (l₁ ++ l₂).getD (l₁.length + k) d = l₂.getD k d := by
  induction l₁ with
  | nil => simp
  | cons x xs ih =>
    show (x :: (xs ++ l₂)).getD (xs.length + 1 + k) d = l₂.getD k d
    rw [show xs.length + 1 + k = (xs.length + k) + 1 by omega, List.getD_cons_succ]
    exact ih

theorem getD_replicate_append_head {α : Type} (n : ℕ) (a d x : α) (l : List α) :
    (List.replicate n a ++ x :: l).getD n d = x := by
  have h := getD_append_right_add (List.replicate n a) (x :: l) d 0
  rw [List.length_replicate] at h
  simpa using h

theorem getD_replicate_append_succ {α : Type} (n k : ℕ) (a d x : α) (l : List α) :
    (List.replicate n a ++ x :: l).getD (n + (k + 1)) d = l.getD k d := by
  have h := getD_append_right_add (List.replicate n a) (x :: l) d (k + 1)
  rw [List.length_replicate] at h
  simpa using h

theorem getD_replicate {α : Type} (a d : α) (n i : ℕ) (h : i < n) :
    (List.replicate n a).getD i d = a := by
  induction n generalizing i with
  | zero => omega
  | succ m ih =>
    cases i with
    | zero => rfl
    | succ j =>
      rw [List.replicate_succ, List.getD_cons_succ]
      exact ih j (by omega)

theorem getD_drop {α : Type} (l : List α) (d : α) (n k : ℕ) :
    (l.drop n).getD k d = l.getD (n + k) d := by
  induction l generalizing n with
  | nil => simp
  | cons x xs ih =>
    cases n with
    | zero => simp
    | succ m =>
      rw [List.drop_succ_cons, ih m,
        show m + 1 + k = (m + k) + 1 by omega, List.getD_cons_succ]

theorem getD_range_map {α : Type} (f : ℕ → α) (d : α) (n i : ℕ) (h : i < n) :
    ((List.range n).map f).getD i d = f i := by
  induction n with
  | zero => omega
  | succ m ih =>
    rw [List.range_succ, List.map_append]
    rcases Nat.lt_or_ge i m with hm | hm
    · rw [getD_append_lt _ _ _ _ (by simpa using hm)]
      exact ih hm
    · have hi : i = m := by omega
      subst hi
      have hl : ((List.range i).map f).length = i := by simp
      have hr := getD_append_right_add ((List.range i).map f) [f i] d 0
      rw [hl] at hr
      exact hr

theorem emaFrom_length (alpha prev : ℚ) (l : List ℚ) :
    (emaFrom alpha prev l).length = l.length := by
  induction l generalizing prev with
  | nil => rfl
  | cons x xs ih => simp [emaFrom, ih]

theorem emaFrom_getD (alpha : ℚ) (l : List ℚ) (prev : ℚ) (j : ℕ) (hj : j < l.length) :
    (emaFrom alpha prev l).getD j 0 =
      l.getD j 0 * alpha +
        (if j = 0 then prev else (emaFrom alpha prev l).getD (j - 1) 0) * (1 - alpha) := by
  induction l generalizing prev j with
  | nil => simp at hj
  | cons x xs ih =>
    cases j with
    | zero => simp [emaFrom]
    | succ k =>
      have hk : k < xs.length := by simpa using hj
      have h2 := ih (x * alpha + prev * (1 - alpha)) k hk
      cases k with
      | zero => simpa [emaFrom] using h2
      | succ k2 => simpa [emaFrom] using h2

/-! ## `CalculateEMA` structure -/

theorem calculateEMA_eq (prices : List ℚ) (period : ℕ) (h : period ≤ prices.length) :
    CalculateEMA prices period =
      some (List.replicate (period - 1) 0 ++
        divD ((prices.take period).sum) (period : ℚ) ::
          emaFrom (emaAlpha period) (divD ((prices.take period).sum) (period : ℚ))
            (prices.drop period)) := by
  unfold CalculateEMA
  rw [if_neg (by omega)]

theorem calculateEMA_length (prices : List ℚ) (period : ℕ) (h1 : 1 ≤ period)
    (h2 : period ≤ prices.length) (out : List ℚ)
    (ho : CalculateEMA prices period = some out) : out.length = prices.length := by
  rw [calculateEMA_eq prices period h2] at ho
  injection ho with ho
  subst ho
  simp only [List.length_append, List.length_replicate, List.length_cons, emaFrom_length,
    List.length_drop]
  omega

/-- **C1** (amended).  For every period `p ≥ 1` and price series of length
`≥ p`, `CalculateEMA` succeeds; its entry at `p-1` is the arithmetic mean of
the first `p` prices as computed by shopspring `Div` — rounded half away from
zero to 16 decimal places, exact only when representable there; and each
later entry follows `price[i]*α + ema[i-1]*(1-α)` where
`α = NewFromFloat(2.0/(p+1))` is the shortest-decimal rendering of the
float64 quotient, not the exact ratio `2/(p+1)`. -/
theorem C1_ema_seed_and_recursion (prices : List ℚ) (period : ℕ)
    (h1 : 1 ≤ period) (h2 : period ≤ prices.length) :
    (CalculateEMA prices period).isSome = true ∧
    emaAt prices period (period - 1) = divD ((prices.take period).sum) (period : ℚ) ∧
    ∀ i, period ≤ i → i < prices.length →
      emaAt prices period i =
        prices.getD i 0 * emaAlpha period +
          emaAt prices period (i - 1) * (1 - emaAlpha period) := by
  have heq := calculateEMA_eq prices period h2
  refine ⟨by rw [heq]; rfl, ?_, ?_⟩
  · unfold emaAt
    rw [heq]
    simp only [Option.getD_some]
    exact getD_replicate_append_head ..
  · intro i hip hin
    unfold emaAt
    rw [heq]
    simp only [Option.getD_some]
    set sma := divD ((prices.take period).sum) (period : ℚ) with hsma
    set E := emaFrom (emaAlpha period) sma (prices.drop period) with hE
    set j := i - period with hj
    have hjlt : j < (prices.drop period).length := by
      rw [List.length_drop]; omega
    have hL1 : (List.replicate (period - 1) (0:ℚ) ++ sma :: E).getD i 0 = E.getD j 0 := by
      rw [show i = (period - 1) + (j + 1) by omega]
      exact getD_replicate_append_succ ..
    rw [hL1, emaFrom_getD _ _ _ _ hjlt, getD_drop,
      show period + j = i by omega]
    by_cases hj0 : j = 0
    · rw [if_pos hj0]
      have hprev : (List.replicate (period - 1) (0:ℚ) ++ sma :: E).getD (i - 1) 0 = sma := by
        rw [show i - 1 = period - 1 by omega]
        exact getD_replicate_append_head ..
      rw [hprev]
    · rw [if_neg hj0]
      have hprev : (List.replicate (period - 1) (0:ℚ) ++ sma :: E).getD (i - 1) 0 =
          E.getD (j - 1) 0 := by
        rw [show i - 1 = (period - 1) + ((j - 1) + 1) by omega]
        exact getD_replicate_append_succ ..
      rw [hprev]

/-- Witness for C1 at `period = 2`, `prices = [1, 5, 3]`. -/
theorem C1_ema_seed_and_recursion_witness :
    (1 ≤ 2 ∧ 2 ≤ ([(1:ℚ), 5, 3]).length) ∧
    ((CalculateEMA [(1:ℚ), 5, 3] 2).isSome = true ∧
      emaAt [(1:ℚ), 5, 3] 2 (2 - 1) = divD (([(1:ℚ), 5, 3].take 2).sum) (2 : ℚ) ∧
      ∀ i, 2 ≤ i → i < ([(1:ℚ), 5, 3]).length →
        emaAt [(1:ℚ), 5, 3] 2 i =
          [(1:ℚ), 5, 3].getD i 0 * emaAlpha 2 +
            emaAt [(1:ℚ), 5, 3] 2 (i - 1) * (1 - emaAlpha 2)) :=
  ⟨⟨by omega, by decide⟩, C1_ema_seed_and_recursion [1, 5, 3] 2 (by omega) (by decide)⟩

/-- **C1** counterexample.  At `period = 3`, `prices = [1, 1, 2]` the entry
at index 2 is the 16-place rounding `1.3333333333333333`, not the exact mean
`4/3`; at `period = 2`, `prices = [0, 0, 3]` the entry at index 2 is
`3 · 0.6666666666666666 = 1.9999999999999998`, not the value
`3·(2/3) + ema[1]·(1/3) = 2` demanded by `α = 2/(p+1)` exactly. -/
theorem C1_counterexample :
    (CalculateEMA [(1:ℚ), 1, 2] 3).isSome = true ∧
    emaAt [(1:ℚ), 1, 2] 3 2 ≠ (1 + 1 + 2) / 3 ∧
    (CalculateEMA [(0:ℚ), 0, 3] 2).isSome = true ∧
    emaAt [(0:ℚ), 0, 3] 2 2 ≠
      3 * (2 / (2 + 1)) + emaAt [(0:ℚ), 0, 3] 2 1 * (1 - 2 / (2 + 1)) :=
  ⟨by with_unfolding_all decide,
    ne_of_qeqb _ _ (by with_unfolding_all decide),
    by with_unfolding_all decide,
    ne_of_qeqb _ _ (by with_unfolding_all decide)⟩

/-! ## C7 -/

/-- **C7** (amended).  `CalculateEMA` returns `none` (explicit absence, no
entry carrying a number) whenever the series is shorter than the period; with
enough data it returns a same-length sequence whose first `p-1` entries are
the *zero decimal* — numeric placeholder values from Go's `make`, not
undefined markers. -/
theorem C7_ema_absence_and_zero_prefix (prices : List ℚ) (period : ℕ) (h1 : 1 ≤ period) :
    (prices.length < period → CalculateEMA prices period = none) ∧
    (period ≤ prices.length →
      ∃ out, CalculateEMA prices period = some out ∧ out.length = prices.length ∧
        ∀ i, i < period - 1 → out.getD i 0 = 0) := by
  constructor
  · intro h
    unfold CalculateEMA
    rw [if_pos h]
  · intro h
    refine ⟨_, calculateEMA_eq prices period h, calculateEMA_length prices period h1 h _
      (calculateEMA_eq prices period h), ?_⟩
    intro i hi
    rw [getD_append_lt _ _ _ _ (by simpa using hi), getD_replicate _ _ _ _ hi]

/-- Witness for C7 at `period = 2` with `prices = [1]` (too short) and
`prices = [1, 1]` (long enough: first entry is the zero decimal). -/
theorem C7_ema_absence_and_zero_prefix_witness :
    (1 ≤ 2) ∧
    (([(1:ℚ)].length < 2 → CalculateEMA [(1:ℚ)] 2 = none) ∧
      (2 ≤ [(1:ℚ)].length →
        ∃ out, CalculateEMA [(1:ℚ)] 2 = some out ∧ out.length = [(1:ℚ)].length ∧
          ∀ i, i < 2 - 1 → out.getD i 0 = 0)) :=
  ⟨by omega, C7_ema_absence_and_zero_prefix [1] 2 (by omega)⟩

/-- **C7** counterexample.  On `[1, 1]` with `p = 2` the code's result
carries the numeric value `0` at index 0, whereas the claim's marked-undefined
sequence has `none` there: the two disagree. -/
theorem C7_counterexample :
    (CalculateEMA [(1:ℚ), 1] 2).map (fun l => l.map some) = some [some 0, some 1] ∧
    emaSpecMarked [(1:ℚ), 1] 2 = some [none, some 1] ∧
    (CalculateEMA [(1:ℚ), 1] 2).map (fun l => l.map some) ≠ emaSpecMarked [(1:ℚ), 1] 2 := by
  have hdiv : divD ((List.take 2 [(1:ℚ), 1]).sum) ((2 : ℕ) : ℚ) = 1 :=
    eq_of_qeqb _ _ (by with_unfolding_all decide)
  have hcode : CalculateEMA [(1:ℚ), 1] 2 = some [0, 1] := by
    rw [calculateEMA_eq [(1:ℚ), 1] 2 (by decide), hdiv]
    rfl
  have hsum : (List.take 2 [(1:ℚ), 1]).sum / ((2 : ℕ) : ℚ) = 1 := by norm_num
  have hspec : emaSpecMarked [(1:ℚ), 1] 2 = some [none, some 1] := by
    unfold emaSpecMarked
    rw [if_neg (by decide), hsum]
    rfl
  refine ⟨by rw [hcode]; rfl, hspec, ?_⟩
  rw [hcode, hspec]
  simp

/-! ## Shared constant values -/

theorem tolerance_value : NewFromFloat (toF64 (2 / 1000)) = 1 / 500 :=
  eq_of_qeqb _ _ (by with_unfolding_all decide)

theorem buffer998_value : NewFromFloat (toF64 (998 / 1000)) = 998 / 1000 :=
  eq_of_qeqb _ _ (by with_unfolding_all decide)

theorem buffer1002_value : NewFromFloat (toF64 (1002 / 1000)) = 1002 / 1000 :=
  eq_of_qeqb _ _ (by with_unfolding_all decide)

theorem riskReward_default_value : NewFromFloat NewVegasTunnelStrategy.riskRewardRatio = 2 :=
  eq_of_qeqb _ _ (by with_unfolding_all decide)

theorem f64_6_2 : f64add (toF64 (6 / 10)) (toF64 (2 / 10)) = toF64 (8 / 10) :=
  eq_of_qeqb _ _ (by with_unfolding_all decide)

theorem f64_8_1 : f64add (toF64 (8 / 10)) (toF64 (1 / 10)) = toF64 (9 / 10) :=
  eq_of_qeqb _ _ (by with_unfolding_all decide)

theorem f64_6_1 : f64add (toF64 (6 / 10)) (toF64 (1 / 10)) = toF64 (7 / 10) :=
  eq_of_qeqb _ _ (by with_unfolding_all decide)

/-! ## C2 -/

/-- **C2**.  For tunnel data whose bounds are the max/min of their EMA pairs
(as the classifier computes them): the direction is Bullish iff the
mid-tunnel lower bound strictly exceeds the long-tunnel upper bound, Bearish
iff the mid-tunnel upper bound is strictly below the long-tunnel lower
bound, Sideways otherwise; equality of the compared bounds never yields a
directional state; and the two directional conditions are mutually
exclusive. -/
theorem C2_trend_classification (t : TunnelData)
    (hmu : t.MidTunnelUpper = max t.EMA144 t.EMA169)
    (hml : t.MidTunnelLower = min t.EMA144 t.EMA169)
    (hlu : t.LongTunnelUpper = max t.EMA288 t.EMA338)
    (hll : t.LongTunnelLower = min t.EMA288 t.EMA338) :
    (determineTrendDirection t = TrendDirection.TrendBullish ↔
      t.LongTunnelUpper < t.MidTunnelLower) ∧
    (determineTrendDirection t = TrendDirection.TrendBearish ↔
      t.MidTunnelUpper < t.LongTunnelLower) ∧
    (¬t.LongTunnelUpper < t.MidTunnelLower → ¬t.MidTunnelUpper < t.LongTunnelLower →
      determineTrendDirection t = TrendDirection.TrendSideways) ∧
    ((t.MidTunnelLower = t.LongTunnelUpper ∨ t.MidTunnelUpper = t.LongTunnelLower) →
      determineTrendDirection t ≠ TrendDirection.TrendBullish ∧
      determineTrendDirection t ≠ TrendDirection.TrendBearish) ∧
    ¬(t.LongTunnelUpper < t.MidTunnelLower ∧ t.MidTunnelUpper < t.LongTunnelLower) := by
  have h1 : t.MidTunnelLower ≤ t.MidTunnelUpper := by
    rw [hml, hmu]; exact min_le_max
  have h2 : t.LongTunnelLower ≤ t.LongTunnelUpper := by
    rw [hll, hlu]; exact min_le_max
  have hexcl : ¬(t.LongTunnelUpper < t.MidTunnelLower ∧
      t.MidTunnelUpper < t.LongTunnelLower) := by
    rintro ⟨ha, hb⟩; linarith
  rcases lt_or_le t.LongTunnelUpper t.MidTunnelLower with hb | hb
  · have hd : determineTrendDirection t = TrendDirection.TrendBullish := by
      unfold determineTrendDirection; rw [if_pos hb]
    refine ⟨by simp [hd, hb], ?_, ?_, ?_, hexcl⟩
    · rw [hd]
      constructor
      · intro h; cases h
      · intro h; linarith
    · intro hn1 _
      exact absurd hb hn1
    · rintro (he | he)
      · exfalso; rw [he] at hb; exact lt_irrefl _ hb
      · exfalso; linarith
  · rcases lt_or_le t.MidTunnelUpper t.LongTunnelLower with hs | hs
    · have hd : determineTrendDirection t = TrendDirection.TrendBearish := by
        unfold determineTrendDirection
        rw [if_neg (not_lt.mpr hb), if_pos hs]
      refine ⟨?_, by simp [hd, hs], ?_, ?_, hexcl⟩
      · rw [hd]
        constructor
        · intro h; cases h
        · intro h; linarith
      · intro _ hn2
        exact absurd hs hn2
      · rintro (he | he)
        · exfalso; linarith
        · exfalso; rw [he] at hs; exact lt_irrefl _ hs
    · have hd : determineTrendDirection t = TrendDirection.TrendSideways := by
        unfold determineTrendDirection
        rw [if_neg (not_lt.mpr hb), if_neg (not_lt.mpr hs)]
      refine ⟨?_, ?_, ?_, ?_, hexcl⟩
      · rw [hd]
        constructor
        · intro h; cases h
        · intro h; linarith
      · rw [hd]
        constructor
        · intro h; cases h
        · intro h; linarith
      · intro _ _
        exact hd
      · intro _
        rw [hd]
        constructor
        · intro h; cases h
        · intro h; cases h

/-- Witness for C2 on the classifier-shaped tunnel built from
`EMA144 = 3, EMA169 = 4, EMA288 = 1, EMA338 = 2`. -/
theorem C2_trend_classification_witness :
    ((mkTunnelEntry 0 3 4 1 2).MidTunnelUpper =
        max (mkTunnelEntry 0 3 4 1 2).EMA144 (mkTunnelEntry 0 3 4 1 2).EMA169 ∧
      (mkTunnelEntry 0 3 4 1 2).MidTunnelLower =
        min (mkTunnelEntry 0 3 4 1 2).EMA144 (mkTunnelEntry 0 3 4 1 2).EMA169 ∧
      (mkTunnelEntry 0 3 4 1 2).LongTunnelUpper =
        max (mkTunnelEntry 0 3 4 1 2).EMA288 (mkTunnelEntry 0 3 4 1 2).EMA338 ∧
      (mkTunnelEntry 0 3 4 1 2).LongTunnelLower =
        min (mkTunnelEntry 0 3 4 1 2).EMA288 (mkTunnelEntry 0 3 4 1 2).EMA338) ∧
    (determineTrendDirection (mkTunnelEntry 0 3 4 1 2) = TrendDirection.TrendBullish ↔
      (mkTunnelEntry 0 3 4 1 2).LongTunnelUpper < (mkTunnelEntry 0 3 4 1 2).MidTunnelLower) :=
  ⟨⟨eq_of_qeqb _ _ (by with_unfolding_all decide), eq_of_qeqb _ _ (by with_unfolding_all decide),
      eq_of_qeqb _ _ (by with_unfolding_all decide),
      eq_of_qeqb _ _ (by with_unfolding_all decide)⟩,
    (C2_trend_classification (mkTunnelEntry 0 3 4 1 2)
      (eq_of_qeqb _ _ (by with_unfolding_all decide))
      (eq_of_qeqb _ _ (by with_unfolding_all decide))
      (eq_of_qeqb _ _ (by with_unfolding_all decide))
      (eq_of_qeqb _ _ (by with_unfolding_all decide))).1⟩

/-! ## C4 -/

theorem isPriceNearTunnel_iff (v : VegasTunnelStrategy) (price : ℚ) (t : TunnelData)
    (b : Bool) :
    isPriceNearTunnel v price t b = true ↔
      ((t.MidTunnelLower * (1 - 1 / 500) ≤ price ∧
          price ≤ t.MidTunnelUpper * (1 + 1 / 500)) ∨
        (t.LongTunnelLower * (1 - 1 / 500) ≤ price ∧
          price ≤ t.LongTunnelUpper * (1 + 1 / 500))) := by
  unfold isPriceNearTunnel
  rw [tolerance_value]
  cases b <;>
    · simp only [Bool.false_eq_true, if_false, if_true]
      by_cases hA : t.MidTunnelLower * (1 - 1 / 500) ≤ price ∧
          price ≤ t.MidTunnelUpper * (1 + 1 / 500) <;>
        by_cases hB : t.LongTunnelLower * (1 - 1 / 500) ≤ price ∧
            price ≤ t.LongTunnelUpper * (1 + 1 / 500) <;>
          simp [hA, hB]

/-- **C4**.  A Buy (resp. Sell) signal is emitted iff all four entry
conditions hold: the slow trend is Bullish (Bearish), the close is strictly
above the slow mid-tunnel lower bound (strictly below its upper bound), the
close sits in the 0.2 % tolerance band of the fast mid- or long-tunnel
range, and the close is strictly above (below) the fast EMA12.  Failure of
any condition yields the explicit no-signal value `none` (Go `nil`) —
evaluation is total, never an error. -/
theorem C4_entry_conditions (v : VegasTunnelStrategy) (t4 t15 : TunnelData)
    (k : KlineData) (sym : String) :
    ((checkLongSignal v t4 t15 k sym).isSome = true ↔
      (t4.TrendDir = TrendDirection.TrendBullish ∧
        t4.MidTunnelLower < k.Close ∧
        ((t15.MidTunnelLower * (1 - 1 / 500) ≤ k.Close ∧
            k.Close ≤ t15.MidTunnelUpper * (1 + 1 / 500)) ∨
          (t15.LongTunnelLower * (1 - 1 / 500) ≤ k.Close ∧
            k.Close ≤ t15.LongTunnelUpper * (1 + 1 / 500))) ∧
        t15.EMA12 < k.Close)) ∧
    ((checkShortSignal v t4 t15 k sym).isSome = true ↔
      (t4.TrendDir = TrendDirection.TrendBearish ∧
        k.Close < t4.MidTunnelUpper ∧
        ((t15.MidTunnelLower * (1 - 1 / 500) ≤ k.Close ∧
            k.Close ≤ t15.MidTunnelUpper * (1 + 1 / 500)) ∨
          (t15.LongTunnelLower * (1 - 1 / 500) ≤ k.Close ∧
            k.Close ≤ t15.LongTunnelUpper * (1 + 1 / 500))) ∧
        k.Close < t15.EMA12)) := by
  have hnearL := isPriceNearTunnel_iff v k.Close t15 true
  have hnearS := isPriceNearTunnel_iff v k.Close t15 false
  constructor
  · unfold checkLongSignal
    split_ifs with h1 h2 h3 h4 <;>
      simp only [Option.isSome_some, Option.isSome_none, Bool.false_eq_true, false_iff,
        true_iff] <;>
      tauto
  · unfold checkShortSignal
    split_ifs with h1 h2 h3 h4 <;>
      simp only [Option.isSome_some, Option.isSome_none, Bool.false_eq_true, false_iff,
        true_iff] <;>
      tauto

/-! ## C6 -/

/-- **C6**.  The signal confidence is the float64 cascade: base 0.6, plus
0.2 when the slow tunnel satisfies the separation inequality on the
favourable side (the same strict inequality that classifies the trend), plus
0.1 when the fast EMA12 sits on the favourable side of the fast mid-tunnel
bound, capped at 1.0 by `math.Min`; and it always lies in `[0, 1]`.  The
four reachable values are the float64 numbers written 0.6, 0.7, 0.8, 0.9. -/
theorem C6_confidence (v : VegasTunnelStrategy) (t4 t15 : TunnelData) (isLong : Bool) :
    (calculateSignalConfidence v t4 t15 isLong =
      if (if isLong then t4.LongTunnelUpper < t4.MidTunnelLower
          else t4.MidTunnelUpper < t4.LongTunnelLower) then
        (if (if isLong then t15.MidTunnelLower < t15.EMA12
            else t15.EMA12 < t15.MidTunnelUpper) then toF64 (9 / 10) else toF64 (8 / 10))
      else
        (if (if isLong then t15.MidTunnelLower < t15.EMA12
            else t15.EMA12 < t15.MidTunnelUpper) then toF64 (7 / 10) else toF64 (6 / 10))) ∧
    0 ≤ calculateSignalConfidence v t4 t15 isLong ∧
    calculateSignalConfidence v t4 t15 isLong ≤ 1 := by
  have m9 : min (f64add (f64add (toF64 (6 / 10)) (toF64 (2 / 10))) (toF64 (1 / 10))) 1 =
      toF64 (9 / 10) := by
    rw [f64_6_2, f64_8_1]
    exact min_eq_left (by with_unfolding_all decide)
  have m8 : min (f64add (toF64 (6 / 10)) (toF64 (2 / 10))) 1 = toF64 (8 / 10) := by
    rw [f64_6_2]
    exact min_eq_left (by with_unfolding_all decide)
  have m7 : min (f64add (toF64 (6 / 10)) (toF64 (1 / 10))) 1 = toF64 (7 / 10) := by
    rw [f64_6_1]
    exact min_eq_left (by with_unfolding_all decide)
  have m6 : min (toF64 (6 / 10)) 1 = toF64 (6 / 10) :=
    min_eq_left (by with_unfolding_all decide)
  have hval : calculateSignalConfidence v t4 t15 isLong =
      if (if isLong then t4.LongTunnelUpper < t4.MidTunnelLower
          else t4.MidTunnelUpper < t4.LongTunnelLower) then
        (if (if isLong then t15.MidTunnelLower < t15.EMA12
            else t15.EMA12 < t15.MidTunnelUpper) then toF64 (9 / 10) else toF64 (8 / 10))
      else
        (if (if isLong then t15.MidTunnelLower < t15.EMA12
            else t15.EMA12 < t15.MidTunnelUpper) then toF64 (7 / 10) else toF64 (6 / 10)) := by
    unfold calculateSignalConfidence
    cases isLong
    · by_cases hA : t4.MidTunnelUpper < t4.LongTunnelLower <;>
        by_cases hB : t15.EMA12 < t15.MidTunnelUpper <;>
          · simp only [hA, hB, Bool.false_eq_true, if_false, if_true, ite_false, ite_true]
            first | exact m9 | exact m8 | exact m7 | exact m6
    · by_cases hA : t4.LongTunnelUpper < t4.MidTunnelLower <;>
        by_cases hB : t15.MidTunnelLower < t15.EMA12 <;>
          · simp only [hA, hB, Bool.true_eq_false, if_false, if_true, ite_false, ite_true]
            first | exact m9 | exact m8 | exact m7 | exact m6
  refine ⟨hval, ?_, ?_⟩ <;>
    · rw [hval]
      split_ifs <;> with_unfolding_all decide

/-! ## C3 and C5 -/

theorem eq_some_getD {α : Type} (o : Option α) (d : α) (h : o.isSome = true) :
    o = some (o.getD d) := by
  cases o with
  | none => cases h
  | some a => rfl

theorem cslatp_price (v : VegasTunnelStrategy) (s : TradingSignal) (t : TunnelData) (b : Bool) :
    (calculateStopLossAndTakeProfit v s t b).Price = s.Price := by
  cases b <;> rfl

theorem cslatp_long_stop (v : VegasTunnelStrategy) (s : TradingSignal) (t : TunnelData) :
    (calculateStopLossAndTakeProfit v s t true).StopLoss =
      (if t.LongTunnelUpper < t.MidTunnelLower then t.LongTunnelUpper else t.MidTunnelLower) *
        NewFromFloat (toF64 (998 / 1000)) := rfl

theorem cslatp_long_tp (v : VegasTunnelStrategy) (s : TradingSignal) (t : TunnelData) :
    (calculateStopLossAndTakeProfit v s t true).TakeProfit =
      s.Price + (s.Price - (calculateStopLossAndTakeProfit v s t true).StopLoss) *
        NewFromFloat v.riskRewardRatio := rfl

theorem cslatp_short_stop (v : VegasTunnelStrategy) (s : TradingSignal) (t : TunnelData) :
    (calculateStopLossAndTakeProfit v s t false).StopLoss =
      (if t.MidTunnelUpper < t.LongTunnelLower then t.LongTunnelLower else t.MidTunnelUpper) *
        NewFromFloat (toF64 (1002 / 1000)) := rfl

theorem cslatp_short_tp (v : VegasTunnelStrategy) (s : TradingSignal) (t : TunnelData) :
    (calculateStopLossAndTakeProfit v s t false).TakeProfit =
      s.Price - ((calculateStopLossAndTakeProfit v s t false).StopLoss - s.Price) *
        NewFromFloat v.riskRewardRatio := rfl

/-- **C3** counterexample.  On classifier-shaped tunnel data (4H bullish,
15M pullback into the long-tunnel band at close 100) the engine emits a Buy
signal whose stop-loss `109.78 = 110 · 0.998` lies *above* the trigger price
100, and whose take-profit lies below it: `stop < trigger < target` fails. -/
theorem C3_counterexample :
    (checkLongSignal NewVegasTunnelStrategy c3T4 c3T15 c3K "BTCUSDT").isSome = true ∧
    c3sig.SigType = SignalType.SignalBuy ∧
    ¬(c3sig.StopLoss < c3sig.Price) ∧
    c3sig.TakeProfit < c3sig.Price :=
  ⟨by with_unfolding_all decide, by with_unfolding_all decide,
    by with_unfolding_all decide, by with_unfolding_all decide⟩

/-- **C3** (amended).  With a positive risk-reward ratio, every emitted Buy
signal whose stop-loss lies strictly below its trigger price satisfies
`stop < trigger < target`, and every emitted Sell signal whose stop-loss lies
strictly above its trigger price satisfies `target < trigger < stop`.  (The
side condition is necessary: a pullback into the fast long tunnel can place
the stop on the wrong side of the trigger, as `C3_counterexample` shows.) -/
theorem C3_price_ordering (v : VegasTunnelStrategy) (t4 t15 : TunnelData) (k : KlineData)
    (sym : String) (hr : 0 < NewFromFloat v.riskRewardRatio) :
    (∀ sig, checkLongSignal v t4 t15 k sym = some sig → sig.StopLoss < sig.Price →
      sig.StopLoss < sig.Price ∧ sig.Price < sig.TakeProfit) ∧
    (∀ sig, checkShortSignal v t4 t15 k sym = some sig → sig.Price < sig.StopLoss →
      sig.TakeProfit < sig.Price ∧ sig.Price < sig.StopLoss) := by
  constructor
  · intro sig h hsp
    unfold checkLongSignal at h
    split_ifs at h
    injection h with h
    subst h
    refine ⟨hsp, ?_⟩
    rw [cslatp_price] at hsp
    rw [cslatp_long_tp, cslatp_price]
    have hpos := mul_pos (sub_pos.mpr hsp) hr
    linarith
  · intro sig h hsp
    unfold checkShortSignal at h
    split_ifs at h
    injection h with h
    subst h
    refine ⟨?_, hsp⟩
    rw [cslatp_price] at hsp
    rw [cslatp_short_tp, cslatp_price]
    have hpos := mul_pos (sub_pos.mpr hsp) hr
    linarith

/-- Witness for the amended C3 on a concrete emitted Buy signal. -/
theorem C3_price_ordering_witness :
    0 < NewFromFloat NewVegasTunnelStrategy.riskRewardRatio ∧
    (c3wsig.StopLoss < c3wsig.Price ∧ c3wsig.Price < c3wsig.TakeProfit) := by
  have hr : 0 < NewFromFloat NewVegasTunnelStrategy.riskRewardRatio := by
    rw [riskReward_default_value]
    norm_num
  have hs : (checkLongSignal NewVegasTunnelStrategy c3wT4 c3wT15 c3wK "BTCUSDT").isSome =
      true := by
    with_unfolding_all decide
  exact ⟨hr, (C3_price_ordering NewVegasTunnelStrategy c3wT4 c3wT15 c3wK "BTCUSDT" hr).1
    c3wsig (eq_some_getD _ zeroTradingSignal hs) (by with_unfolding_all decide)⟩

/-- **C5** counterexample.  The emitted Buy has its trigger at 1003, right at
the mid tunnel; the nearer adverse bound is the mid-tunnel lower bound 1000
(distance 3 versus 503), so the claim's stop would be `998`; the code instead
takes the *lower* of the two bounds and produces `499 = 500 · 0.998`. -/
theorem C5_counterexample :
    (checkLongSignal NewVegasTunnelStrategy c5T4 c5T15 c5K "BTCUSDT").isSome = true ∧
    c5sig.SigType = SignalType.SignalBuy ∧
    c5sig.StopLoss = 499 ∧
    nearerAdverseStopLong c5T15 c5sig.Price = 998 ∧
    c5sig.StopLoss ≠ nearerAdverseStopLong c5T15 c5sig.Price :=
  ⟨by with_unfolding_all decide, by with_unfolding_all decide,
    eq_of_qeqb _ _ (by with_unfolding_all decide),
    eq_of_qeqb _ _ (by with_unfolding_all decide),
    ne_of_qeqb _ _ (by with_unfolding_all decide)⟩

/-- **C5** (amended).  Every emitted Buy signal has
`stop = min(fast midTunnelLower, fast longTunnelUpper) · 0.998` — the lower
of the two candidate bounds, not the nearer to the trigger — and
`target = trigger + (trigger - stop) · riskRewardRatio`; mirrored for Sell
with `max(fast midTunnelUpper, fast longTunnelLower) · 1.002`; the default
ratio is 2. -/
theorem C5_stop_and_target (v : VegasTunnelStrategy) (t4 t15 : TunnelData) (k : KlineData)
    (sym : String) :
    (∀ sig, checkLongSignal v t4 t15 k sym = some sig →
      sig.Price = k.Close ∧
      sig.StopLoss = min t15.MidTunnelLower t15.LongTunnelUpper * (998 / 1000) ∧
      sig.TakeProfit = sig.Price + (sig.Price - sig.StopLoss) *
        NewFromFloat v.riskRewardRatio) ∧
    (∀ sig, checkShortSignal v t4 t15 k sym = some sig →
      sig.Price = k.Close ∧
      sig.StopLoss = max t15.MidTunnelUpper t15.LongTunnelLower * (1002 / 1000) ∧
      sig.TakeProfit = sig.Price - (sig.StopLoss - sig.Price) *
        NewFromFloat v.riskRewardRatio) ∧
    NewFromFloat NewVegasTunnelStrategy.riskRewardRatio = 2 := by
  refine ⟨?_, ?_, riskReward_default_value⟩
  · intro sig h
    unfold checkLongSignal at h
    split_ifs at h
    injection h with h
    subst h
    refine ⟨cslatp_price .., ?_, ?_⟩
    · rw [cslatp_long_stop, buffer998_value]
      congr 1
      rcases lt_or_le t15.LongTunnelUpper t15.MidTunnelLower with hc | hc
      · rw [if_pos hc, min_eq_right hc.le]
      · rw [if_neg (not_lt.mpr hc), min_eq_left hc]
    · rw [cslatp_long_tp, cslatp_price]
  · intro sig h
    unfold checkShortSignal at h
    split_ifs at h
    injection h with h
    subst h
    refine ⟨cslatp_price .., ?_, ?_⟩
    · rw [cslatp_short_stop, buffer1002_value]
      congr 1
      rcases lt_or_le t15.MidTunnelUpper t15.LongTunnelLower with hc | hc
      · rw [if_pos hc, max_eq_right hc.le]
      · rw [if_neg (not_lt.mpr hc), max_eq_left hc]
    · rw [cslatp_short_tp, cslatp_price]

/-- Witness for the amended C5 on the concrete emitted Buy signal. -/
theorem C5_stop_and_target_witness :
    c5sig.Price = c5K.Close ∧
    c5sig.StopLoss = min c5T15.MidTunnelLower c5T15.LongTunnelUpper * (998 / 1000) ∧
    c5sig.TakeProfit = c5sig.Price + (c5sig.Price - c5sig.StopLoss) *
      NewFromFloat NewVegasTunnelStrategy.riskRewardRatio := by
  have hs : (checkLongSignal NewVegasTunnelStrategy c5T4 c5T15 c5K "BTCUSDT").isSome =
      true := by
    with_unfolding_all decide
  exact (C5_stop_and_target NewVegasTunnelStrategy c5T4 c5T15 c5K "BTCUSDT").1
    c5sig (eq_some_getD _ zeroTradingSignal hs)

/-! ## C8 -/

/-- **C8** counterexample.  A bar whose open time (50) is less than the open
time of the last appended bar (100) is *not* rejected: `UpdateKlineData`
appends it, the series changes and its length grows, leaving a
non-increasing timestamp order. -/
theorem C8_counterexample :
    c8B.Timestamp ≤ c8A.Timestamp ∧
    (UpdateKlineData c8S c8B "15m").kline15MData = [c8A, c8B] ∧
    ((UpdateKlineData c8S c8B "15m").kline15MData).length ≠ c8S.kline15MData.length := by
  refine ⟨by decide, rfl, by decide⟩

/-- **C8** (amended).  `UpdateKlineData` appends *every* bar to the matching
series regardless of its open time — there is no ordering or duplicate
check — growing the series by one bar (until the 1000-bar cap for `"15m"`,
500 for `"4h"`, after which the oldest bar is evicted). -/
theorem C8_unconditional_append (v : VegasTunnelStrategy) (b : KlineData)
    (h15 : v.kline15MData.length < 1000) (h4 : v.kline4HData.length < 500) :
    (UpdateKlineData v b "15m").kline15MData = v.kline15MData ++ [b] ∧
    ((UpdateKlineData v b "15m").kline15MData).length = v.kline15MData.length + 1 ∧
    (UpdateKlineData v b "4h").kline4HData = v.kline4HData ++ [b] ∧
    ((UpdateKlineData v b "4h").kline4HData).length = v.kline4HData.length + 1 := by
  have e15 : (UpdateKlineData v b "15m").kline15MData = v.kline15MData ++ [b] := by
    unfold UpdateKlineData
    rw [if_pos rfl]
    show (if (v.kline15MData ++ [b]).length > 1000 then _ else _) = _
    rw [if_neg (by simp only [List.length_append, List.length_singleton]; omega)]
  have e4 : (UpdateKlineData v b "4h").kline4HData = v.kline4HData ++ [b] := by
    unfold UpdateKlineData
    rw [if_neg (by decide), if_pos rfl]
    show (if (v.kline4HData ++ [b]).length > 500 then _ else _) = _
    rw [if_neg (by simp only [List.length_append, List.length_singleton]; omega)]
  refine ⟨e15, by rw [e15]; simp, e4, by rw [e4]; simp⟩

/-- Witness for the amended C8: the out-of-order bar (open time 50 after
open time 100) is appended, not rejected. -/
theorem C8_unconditional_append_witness :
    (c8S.kline15MData.length < 1000 ∧ c8S.kline4HData.length < 500) ∧
    ((UpdateKlineData c8S c8B "15m").kline15MData = c8S.kline15MData ++ [c8B] ∧
      ((UpdateKlineData c8S c8B "15m").kline15MData).length = c8S.kline15MData.length + 1 ∧
      (UpdateKlineData c8S c8B "4h").kline4HData = c8S.kline4HData ++ [c8B] ∧
      ((UpdateKlineData c8S c8B "4h").kline4HData).length = c8S.kline4HData.length + 1) :=
  ⟨⟨by decide, by decide⟩, C8_unconditional_append c8S c8B (by decide) (by decide)⟩

/-! ## C10 -/

theorem foldl_update15M (v : VegasTunnelStrategy) (klines : List KlineData) :
    klines.foldl (fun st k => UpdateKlineData st k "15M") v = v := by
  induction klines with
  | nil => rfl
  | cons x xs ih =>
    have hx : UpdateKlineData v x "15M" = v := by
      unfold UpdateKlineData
      rw [if_neg (by decide), if_neg (by decide)]
    show xs.foldl (fun st k => UpdateKlineData st k "15M") (UpdateKlineData v x "15M") = v
    rw [hx]
    exact ih

theorem generateSignal_fst (v : VegasTunnelStrategy) (klines : List KlineData) :
    (GenerateSignal v klines).1 = v := by
  cases klines with
  | nil => rfl
  | cons k0 rest =>
    unfold GenerateSignal
    simp only [foldl_update15M]
    split_ifs with h1 h2
    · rfl
    · rfl
    · rcases CalculateTunnelData v v.kline4HData with _ | t4
      · rfl
      · rcases CalculateTunnelData v v.kline15MData with _ | t15
        · rfl
        · dsimp only
          rcases checkLongSignal v (t4.getD (t4.length - 1) zeroTunnelData)
              (t15.getD (t15.length - 1) zeroTunnelData)
              (v.kline15MData.getD (v.kline15MData.length - 1) zeroKlineData) k0.Symbol
            with _ | s
          · rfl
          · rfl

/-- **C10**.  `UpdateKlineData` is a silent no-op for any timeframe string
other than exactly `"15m"` or `"4h"` (in particular for `"15M"` and `"4H"`):
the strategy state, and with it both stored series, is unchanged.
Consequently the internal `UpdateKlineData(kline, "15M")` calls inside
`GenerateSignal` never append anything: the state component of
`GenerateSignal`'s result is always the input state. -/
theorem C10_update_noop (v : VegasTunnelStrategy) (b : KlineData) (tf : String)
    (klines : List KlineData) (h15 : tf ≠ "15m") (h4 : tf ≠ "4h") :
    UpdateKlineData v b tf = v ∧ (GenerateSignal v klines).1 = v := by
  refine ⟨?_, generateSignal_fst v klines⟩
  unfold UpdateKlineData
  rw [if_neg h15, if_neg h4]

/-- Witness for C10 at the uppercase timeframe `"15M"` on the default
strategy. -/
theorem C10_update_noop_witness :
    (("15M" : String) ≠ "15m" ∧ ("15M" : String) ≠ "4h") ∧
    (UpdateKlineData NewVegasTunnelStrategy c10B "15M" = NewVegasTunnelStrategy ∧
      (GenerateSignal NewVegasTunnelStrategy [c10B]).1 = NewVegasTunnelStrategy) :=
  ⟨⟨by decide, by decide⟩,
    C10_update_noop NewVegasTunnelStrategy c10B "15M" [c10B] (by decide) (by decide)⟩

/-! ## C9 -/

theorem emaAt_eq_getD (prices : List ℚ) (p : ℕ) (L : List ℚ) (i : ℕ)
    (h : CalculateEMA prices p = some L) : emaAt prices p i = L.getD i 0 := by
  unfold emaAt
  rw [h]
  rfl

theorem calculateTunnelData_eq (d4 hist : List KlineData) (h : 338 ≤ hist.length) :
    CalculateTunnelData (strategyWithData hist d4) hist =
      some ((List.range hist.length).map fun i =>
        if 338 - 1 ≤ i then
          mkTunnelEntry (emaAt (hist.map KlineData.Close) 12 i)
            (emaAt (hist.map KlineData.Close) 144 i)
            (emaAt (hist.map KlineData.Close) 169 i)
            (emaAt (hist.map KlineData.Close) 288 i)
            (emaAt (hist.map KlineData.Close) 338 i)
        else zeroTunnelData) := by
  have hlp : (hist.map KlineData.Close).length = hist.length := List.length_map ..
  have h12 := calculateEMA_eq (hist.map KlineData.Close) 12 (by omega)
  have h144 := calculateEMA_eq (hist.map KlineData.Close) 144 (by omega)
  have h169 := calculateEMA_eq (hist.map KlineData.Close) 169 (by omega)
  have h288 := calculateEMA_eq (hist.map KlineData.Close) 288 (by omega)
  have h338 := calculateEMA_eq (hist.map KlineData.Close) 338 (by omega)
  unfold CalculateTunnelData
  rw [show (strategyWithData hist d4).longTunnel2Period = 338 from rfl,
    show (strategyWithData hist d4).shortEMAPeriod = 12 from rfl,
    show (strategyWithData hist d4).midTunnel1Period = 144 from rfl,
    show (strategyWithData hist d4).midTunnel2Period = 169 from rfl,
    show (strategyWithData hist d4).longTunnel1Period = 288 from rfl,
    if_neg (by omega)]
  dsimp only
  rw [h12, h144, h169, h288, h338]
  dsimp only
  refine congrArg some (List.map_congr_left ?_)
  intro i hi
  rw [emaAt_eq_getD _ _ _ i h12, emaAt_eq_getD _ _ _ i h144, emaAt_eq_getD _ _ _ i h169,
    emaAt_eq_getD _ _ _ i h288, emaAt_eq_getD _ _ _ i h338]

theorem tunnelList_getD_last (hist : List KlineData) (h : 338 ≤ hist.length) :
    ((List.range hist.length).map fun i =>
        if 338 - 1 ≤ i then
          mkTunnelEntry (emaAt (hist.map KlineData.Close) 12 i)
            (emaAt (hist.map KlineData.Close) 144 i)
            (emaAt (hist.map KlineData.Close) 169 i)
            (emaAt (hist.map KlineData.Close) 288 i)
            (emaAt (hist.map KlineData.Close) 338 i)
        else zeroTunnelData).getD (hist.length - 1) zeroTunnelData =
      mkTunnelEntry (emaAt (hist.map KlineData.Close) 12 (hist.length - 1))
        (emaAt (hist.map KlineData.Close) 144 (hist.length - 1))
        (emaAt (hist.map KlineData.Close) 169 (hist.length - 1))
        (emaAt (hist.map KlineData.Close) 288 (hist.length - 1))
        (emaAt (hist.map KlineData.Close) 338 (hist.length - 1)) := by
  rw [getD_range_map _ _ _ _ (show hist.length - 1 < hist.length by omega)]
  rw [if_pos (show (338:ℕ) - 1 ≤ hist.length - 1 by omega)]

/-- **C9**.  `CheckEMA12Exit(sym, true)` yields a signal iff the 15M history
is sufficient (at least `longTunnel2Period = 338` bars under the default
parameters) and the latest close is strictly below the latest fast short
(EMA12) value; `CheckEMA12Exit(sym, false)` is the mirror (strictly above);
in every other case — including insufficient history — it yields no signal.
Every emitted exit signal carries type `SignalTakeProfit`, the float64
confidence 0.9, and the latest close as its price. -/
theorem C9_ema12_exit (hist : List KlineData) (sym : String) :
    ((CheckEMA12Exit (strategyWithData hist []) sym true).isSome = true ↔
      338 ≤ hist.length ∧
        (hist.getD (hist.length - 1) zeroKlineData).Close <
          emaAt (hist.map KlineData.Close) 12 (hist.length - 1)) ∧
    ((CheckEMA12Exit (strategyWithData hist []) sym false).isSome = true ↔
      338 ≤ hist.length ∧
        emaAt (hist.map KlineData.Close) 12 (hist.length - 1) <
          (hist.getD (hist.length - 1) zeroKlineData).Close) ∧
    (∀ (sig : TradingSignal) (b : Bool),
      CheckEMA12Exit (strategyWithData hist []) sym b = some sig →
      sig.SigType = SignalType.SignalTakeProfit ∧
      sig.Confidence = toF64 (9 / 10) ∧
      sig.Price = (hist.getD (hist.length - 1) zeroKlineData).Close) := by
  rcases le_or_lt 338 hist.length with hge | hlt
  · have htd := calculateTunnelData_eq [] hist hge
    have hT : CheckEMA12Exit (strategyWithData hist []) sym true =
        if (hist.getD (hist.length - 1) zeroKlineData).Close <
            emaAt (hist.map KlineData.Close) 12 (hist.length - 1) then
          some ⟨sym, SignalType.SignalTakeProfit,
            (hist.getD (hist.length - 1) zeroKlineData).Close, 0, 0, toF64 (9 / 10),
            "15M收盘价跌破EMA12移动止盈线",
            (hist.getD (hist.length - 1) zeroKlineData).Timestamp, "15M"⟩
        else none := by
      unfold CheckEMA12Exit
      rw [show (strategyWithData hist []).kline15MData = hist from rfl,
        if_neg (show ¬(hist.length < 2) by omega), htd]
      dsimp only
      simp only [List.length_map, List.length_range, if_true]
      rw [tunnelList_getD_last hist hge]
      rfl
    have hF : CheckEMA12Exit (strategyWithData hist []) sym false =
        if emaAt (hist.map KlineData.Close) 12 (hist.length - 1) <
            (hist.getD (hist.length - 1) zeroKlineData).Close then
          some ⟨sym, SignalType.SignalTakeProfit,
            (hist.getD (hist.length - 1) zeroKlineData).Close, 0, 0, toF64 (9 / 10),
            "15M收盘价突破EMA12移动止盈线",
            (hist.getD (hist.length - 1) zeroKlineData).Timestamp, "15M"⟩
        else none := by
      unfold CheckEMA12Exit
      rw [show (strategyWithData hist []).kline15MData = hist from rfl,
        if_neg (show ¬(hist.length < 2) by omega), htd]
      dsimp only
      simp only [List.length_map, List.length_range, if_false]
      rw [tunnelList_getD_last hist hge]
      rfl
    refine ⟨?_, ?_, ?_⟩
    · rw [hT]
      by_cases hc : (hist.getD (hist.length - 1) zeroKlineData).Close <
          emaAt (hist.map KlineData.Close) 12 (hist.length - 1)
      · rw [if_pos hc]
        exact ⟨fun _ => ⟨hge, hc⟩, fun _ => rfl⟩
      · rw [if_neg hc]
        exact ⟨(fun h => nomatch h), fun h => absurd h.2 hc⟩
    · rw [hF]
      by_cases hc : emaAt (hist.map KlineData.Close) 12 (hist.length - 1) <
          (hist.getD (hist.length - 1) zeroKlineData).Close
      · rw [if_pos hc]
        exact ⟨fun _ => ⟨hge, hc⟩, fun _ => rfl⟩
      · rw [if_neg hc]
        exact ⟨(fun h => nomatch h), fun h => absurd h.2 hc⟩
    · intro sig b hsig
      cases b
      · rw [hF] at hsig
        by_cases hc : emaAt (hist.map KlineData.Close) 12 (hist.length - 1) <
            (hist.getD (hist.length - 1) zeroKlineData).Close
        · rw [if_pos hc] at hsig
          injection hsig with hsig
          subst hsig
          exact ⟨rfl, rfl, rfl⟩
        · rw [if_neg hc] at hsig
          exact Option.noConfusion hsig
      · rw [hT] at hsig
        by_cases hc : (hist.getD (hist.length - 1) zeroKlineData).Close <
            emaAt (hist.map KlineData.Close) 12 (hist.length - 1)
        · rw [if_pos hc] at hsig
          injection hsig with hsig
          subst hsig
          exact ⟨rfl, rfl, rfl⟩
        · rw [if_neg hc] at hsig
          exact Option.noConfusion hsig
  · have hnone : ∀ b : Bool, CheckEMA12Exit (strategyWithData hist []) sym b = none := by
      intro b
      unfold CheckEMA12Exit
      rw [show (strategyWithData hist []).kline15MData = hist from rfl]
      by_cases h2 : hist.length < 2
      · rw [if_pos h2]
      · rw [if_neg h2]
        have htn : CalculateTunnelData (strategyWithData hist []) hist = none := by
          unfold CalculateTunnelData
          rw [show (strategyWithData hist []).longTunnel2Period = 338 from rfl,
            if_pos hlt]
        rw [htn]
    have hn : ¬(338 ≤ hist.length) := by omega
    refine ⟨?_, ?_, ?_⟩
    · rw [hnone true]
      exact ⟨(fun h => nomatch h), fun h => absurd h.1 hn⟩
    · rw [hnone false]
      exact ⟨(fun h => nomatch h), fun h => absurd h.1 hn⟩
    · intro sig b hsig
      rw [hnone b] at hsig
      exact Option.noConfusion hsig

end VegasBot
